import Mathlib

/-!
Verification of the acoustics_101 real-time stimulus engine against its
specification.  The Python sources (`stimulus.py`, `PaMethods.py`,
`pa_methods.py`) are shallowly embedded below: numpy float arrays become
lists of rationals (exact arithmetic), the stateful generator objects become
explicit state records, and fallible operations (Python `assert` / `raise`)
return `Option` / `Except`.
-/

namespace Acoustics

/-- `np.sign` on a rational: `1` for positive, `-1` for negative, `0` for zero
(embeds `np.sign(change_until_steady_state)` in `EnvelopeGenerator.next`). -/
def qsign (x : ℚ) : ℚ := if 0 < x then 1 else if x < 0 then -1 else 0

/-- `np.linspace(a, b, n)`: `n` evenly spaced samples from `a` to `b`,
endpoints included; sample `i` is `a + (b - a) * i / (n - 1)`.  For `n = 1`
the division by zero yields `a` (matching numpy's single-point behaviour),
and `n = 0` gives the empty list. -/
def linspace (a b : ℚ) (n : ℕ) : List ℚ :=
  (List.range n).map (fun i : ℕ => a + (b - a) * (i : ℚ) / ((n : ℚ) - 1))

/-- State of `stimulus.EnvelopeGenerator`: target `setpoint`, interpolation
point `current`, slew `rate` (units/second) with its cached reciprocal
`inv_rate`, sample rate `Fs` with cached period `Ts`, and the
`_steady_state` flag. -/
structure EnvelopeGenerator where
  setpoint : ℚ
  current : ℚ
  rate : ℚ
  inv_rate : ℚ
  Fs : ℚ
  Ts : ℚ
  steady_state : Bool
deriving DecidableEq

/-- `EnvelopeGenerator.__init__(setpoint, rate, Fs)`: starts at the setpoint
(`current = setpoint`), caches `1/rate` and `1/Fs`, and is in steady state. -/
def EnvelopeGenerator.init (setpoint rate Fs : ℚ) : EnvelopeGenerator :=
  { setpoint := setpoint
    current := setpoint
    rate := rate
    inv_rate := 1 / rate
    Fs := Fs
    Ts := 1 / Fs
    steady_state := true }

/-- The `setpoint` property setter: stores the new target and clears the
steady-state flag (`self._setpoint = value; self._steady_state = False`). -/
def EnvelopeGenerator.setSetpoint (e : EnvelopeGenerator) (v : ℚ) : EnvelopeGenerator :=
  { e with setpoint := v, steady_state := false }

/-- `int(np.abs(change_until_steady_state) * self._inv_rate * self._Fs)` from
`EnvelopeGenerator.next`: the number of samples needed to finish the ramp
(the argument is nonnegative, so Python's truncation is a floor). -/
def EnvelopeGenerator.samplesUntilSteadyState (e : EnvelopeGenerator) : ℕ :=
  (⌊|e.setpoint - e.current| * e.inv_rate * e.Fs⌋).toNat

/-- `EnvelopeGenerator.next(n)`.  Returns the generated block together with
the updated generator state; `none` embeds the `assert
samples_until_steady_state < n` failure.  Mirrors the source:
steady state returns `n` copies of the setpoint; otherwise either a linear
ramp of `n` points advancing `current` by `sign * rate * n * Ts`, or (when
the remaining change is coverable) the remaining ramp followed by setpoint
fill, entering steady state. -/
def EnvelopeGenerator.next (e : EnvelopeGenerator) (n : ℕ) :
    Option (List ℚ × EnvelopeGenerator) :=
  if e.steady_state then
    some (List.replicate n e.setpoint, e)
  else
    let change_until_steady_state := e.setpoint - e.current
    let change_direction := qsign change_until_steady_state
    let current_change := change_direction * e.rate * n * e.Ts
    if |change_until_steady_state| > |current_change| then
      some (linspace e.current (e.current + current_change) n,
            { e with current := e.current + current_change })
    else
      let samples_until_steady_state := e.samplesUntilSteadyState
      if samples_until_steady_state < n then
        some (linspace e.current (e.current + change_until_steady_state)
                samples_until_steady_state
              ++ List.replicate (n - samples_until_steady_state) e.setpoint,
              { e with steady_state := true, current := e.setpoint })
      else
        none

/-- An envelope generator sitting exactly at the coverage boundary:
`|setpoint - current| = rate * n / Fs` for `n = 4800`
(`setpoint = 20`, `current = 0`, `rate = 200`, `Fs = 48000`). -/
def boundaryEnv : EnvelopeGenerator :=
  { setpoint := 20, current := 0, rate := 200, inv_rate := 1 / 200,
    Fs := 48000, Ts := 1 / 48000, steady_state := false }

/-- A mid-ramp envelope generator strictly inside the coverage region:
`setpoint = -10`, `current = 0`, `rate = 200`, `Fs = 48000`, so the
remaining change (10 units) needs 2400 samples, strictly less than 4800. -/
def rampEnv : EnvelopeGenerator :=
  { setpoint := -10, current := 0, rate := 200, inv_rate := 1 / 200,
    Fs := 48000, Ts := 1 / 48000, steady_state := false }

lemma length_linspace (a b : ℚ) (n : ℕ) : (linspace a b n).length = n := by
  rw [linspace, List.length_map, List.length_range]

lemma getLast?_replicate_of_pos {α : Type} (n : ℕ) (x : α) (h : 0 < n) :
    (List.replicate n x).getLast? = some x := by
  induction n with
  | zero => omega
  | succ m ih =>
    rcases Nat.eq_zero_or_pos m with hm | hm
    · subst hm; rfl
    · rw [List.replicate_succ, List.getLast?_cons, ih hm]
      simp

/-- C3: `EnvelopeGenerator(setpoint=0, rate=200, Fs=48000)`, reassign the
setpoint to `-10`, then `next(4800)`: the call returns the 2400-sample ramp
from 0 toward -10 followed by 2400 samples at -10 (4800 values in total,
the last exactly -10), and leaves the generator steady with
`current = setpoint = -10`. -/
theorem EnvelopeGenerator.ramp_scenario_to_neg10 :
    ((EnvelopeGenerator.init 0 200 48000).setSetpoint (-10)).next 4800 =
      some (linspace 0 (-10) 2400 ++ List.replicate 2400 (-10),
            { setpoint := -10, current := -10, rate := 200, inv_rate := 1 / 200,
              Fs := 48000, Ts := 1 / 48000, steady_state := true }) ∧
    (linspace 0 (-10) 2400 ++ List.replicate 2400 (-10)).length = 4800 ∧
    (linspace 0 (-10) 2400 ++ List.replicate 2400 (-10)).getLast? = some (-10) := by
  refine ⟨?_, ?_, ?_⟩
  · rw [EnvelopeGenerator.init, EnvelopeGenerator.setSetpoint]
    rw [EnvelopeGenerator.next]
    norm_num [qsign, EnvelopeGenerator.samplesUntilSteadyState]
    have h24 : (2400 : ℤ).toNat = 2400 := rfl
    rw [h24]
  · rw [List.length_append, length_linspace, List.length_replicate]
  · rw [List.getLast?_append_of_ne_nil _
      (by rw [ne_eq, List.replicate_eq_nil_iff]; norm_num :
        List.replicate 2400 (-10 : ℚ) ≠ [])]
    exact getLast?_replicate_of_pos 2400 _ (by norm_num)

/-- C4 counterexample: at the exact coverage boundary
`|setpoint - current| * Fs = rate * n` (a non-steady generator with
`setpoint = 20`, `current = 0`, `rate = 200`, `Fs = 48000`, block `n = 4800`)
the ramp branch is not taken, yet `samplesUntilSteadyState = 4800` is NOT
strictly less than `n`, so the internal assertion fires (`next` fails). -/
theorem EnvelopeGenerator.samplesUntilSteady_boundary_cex :
    boundaryEnv.steady_state = false ∧
    |boundaryEnv.setpoint - boundaryEnv.current| * boundaryEnv.Fs =
      boundaryEnv.rate * (4800 : ℕ) ∧
    ¬ boundaryEnv.samplesUntilSteadyState < 4800 ∧
    boundaryEnv.next 4800 = none := by
  refine ⟨rfl, by norm_num [boundaryEnv], ?_, ?_⟩
  · rw [boundaryEnv, EnvelopeGenerator.samplesUntilSteadyState]
    norm_num
  · rw [boundaryEnv, EnvelopeGenerator.next]
    norm_num [qsign, EnvelopeGenerator.samplesUntilSteadyState]

/-- C4 (amended): when a non-steady `next(n)` call has the remaining change
STRICTLY coverable within the block (`|setpoint - current| * Fs < rate * n`),
then `samplesUntilSteadyState < n`, the assertion holds and the call
succeeds.  (At exact equality the assertion fails; see the boundary
counterexample.) -/
theorem EnvelopeGenerator.samplesUntilSteady_lt_of_strict_cover
    (e : EnvelopeGenerator) (n : ℕ)
    (hrate : 0 < e.rate) (hFs : 0 < e.Fs)
    (hinv : e.inv_rate = 1 / e.rate) (hTs : e.Ts = 1 / e.Fs)
    (hs : e.steady_state = false)
    (hcov : |e.setpoint - e.current| * e.Fs < e.rate * n) :
    e.samplesUntilSteadyState < n ∧ (e.next n).isSome = true := by
  have hx : |e.setpoint - e.current| * e.inv_rate * e.Fs < (n : ℚ) := by
    rw [hinv]
    have hrw : |e.setpoint - e.current| * (1 / e.rate) * e.Fs
        = |e.setpoint - e.current| * e.Fs / e.rate := by ring
    rw [hrw, div_lt_iff₀ hrate]
    calc |e.setpoint - e.current| * e.Fs < e.rate * n := hcov
    _ = (n : ℚ) * e.rate := mul_comm _ _
  have hsus : e.samplesUntilSteadyState < n := by
    rw [EnvelopeGenerator.samplesUntilSteadyState]
    have h0 : (0 : ℚ) ≤ |e.setpoint - e.current| * e.inv_rate * e.Fs := by
      apply mul_nonneg
      apply mul_nonneg (abs_nonneg _)
      rw [hinv]; positivity
      exact le_of_lt hFs
    have hfl : ⌊|e.setpoint - e.current| * e.inv_rate * e.Fs⌋ < (n : ℤ) := by
      rw [Int.floor_lt]
      exact_mod_cast hx
    rw [Int.toNat_lt (Int.le_floor.2 (by exact_mod_cast h0))]
    exact hfl
  refine ⟨hsus, ?_⟩
  rw [EnvelopeGenerator.next, if_neg (by simp [hs])]
  have hnotgt : ¬ (|e.setpoint - e.current| >
      |qsign (e.setpoint - e.current) * e.rate * n * e.Ts|) := by
    push_neg
    rcases eq_or_ne (e.setpoint - e.current) 0 with h0 | h0
    · rw [h0]; simp
    · have hq : |qsign (e.setpoint - e.current)| = 1 := by
        rw [qsign]
        rcases lt_or_gt_of_ne h0 with hneg | hpos
        · rw [if_neg (by linarith), if_pos hneg]; norm_num
        · rw [if_pos hpos]; norm_num
      rw [abs_mul, abs_mul, abs_mul, hq, one_mul, hTs]
      rw [abs_of_pos hrate, Nat.abs_cast, abs_of_pos (by positivity : (0:ℚ) < 1 / e.Fs)]
      rw [mul_assoc, mul_one_div, ← mul_div_assoc, le_div_iff₀ hFs]
      exact le_of_lt hcov
  rw [if_neg hnotgt, if_pos hsus]
  rfl

/-- Witness for C4 (amended) at the concrete mid-ramp generator `rampEnv`
with block size `n = 4800`. -/
theorem EnvelopeGenerator.samplesUntilSteady_lt_of_strict_cover_check :
    (0 : ℚ) < rampEnv.rate ∧ (0 : ℚ) < rampEnv.Fs ∧
    |rampEnv.setpoint - rampEnv.current| * rampEnv.Fs < rampEnv.rate * (4800 : ℕ) ∧
    (rampEnv.samplesUntilSteadyState < 4800 ∧ (rampEnv.next 4800).isSome = true) :=
  ⟨by norm_num [rampEnv], by norm_num [rampEnv], by norm_num [rampEnv],
   EnvelopeGenerator.samplesUntilSteady_lt_of_strict_cover rampEnv 4800
     (by norm_num [rampEnv]) (by norm_num [rampEnv]) rfl rfl rfl
     (by norm_num [rampEnv])⟩

/-- C10: reassigning the setpoint to a value equal to `current` clears the
steady-state flag, yet the next `next(n)` call (any `n ≥ 1`) still returns
exactly `n` copies of the setpoint (a zero-length ramp followed by `n`
setpoint samples), succeeds, and restores steady state with
`current = setpoint`. -/
theorem EnvelopeGenerator.redundant_setpoint_no_glitch
    (e : EnvelopeGenerator) (v : ℚ) (n : ℕ) (hn : 1 ≤ n) (hcur : e.current = v) :
    (e.setSetpoint v).steady_state = false ∧
    (e.setSetpoint v).next n =
      some (List.replicate n v,
            { e with setpoint := v, current := v, steady_state := true }) := by
  subst hcur
  refine ⟨rfl, ?_⟩
  rw [EnvelopeGenerator.setSetpoint, EnvelopeGenerator.next]
  simp only [EnvelopeGenerator.samplesUntilSteadyState, qsign]
  norm_num
  exact ⟨by omega, by simp [linspace]⟩

/-- Witness for C10 at a generator initialised at 3 (so `current = 3`),
redundantly re-targeted to 3, with block size 5. -/
theorem EnvelopeGenerator.redundant_setpoint_no_glitch_check :
    1 ≤ 5 ∧ (EnvelopeGenerator.init 3 1 48000).current = 3 ∧
    (((EnvelopeGenerator.init 3 1 48000).setSetpoint 3).steady_state = false ∧
     ((EnvelopeGenerator.init 3 1 48000).setSetpoint 3).next 5 =
       some (List.replicate 5 3,
             { EnvelopeGenerator.init 3 1 48000 with
                 setpoint := 3, current := 3, steady_state := true })) :=
  ⟨by norm_num, rfl,
   EnvelopeGenerator.redundant_setpoint_no_glitch
     (EnvelopeGenerator.init 3 1 48000) 3 5 (by norm_num) rfl⟩

/-- Timing state maintained by the abstract `Stimulus` base class
(`stimulus.py`): the elapsed-frame counter `self._frame` and the PyAudio
completion flag `self.pa_flag` (modeled as a Boolean, `true` =
`pyaudio.paComplete`, `false` = `pyaudio.paContinue`). -/
structure StimulusTiming where
  frame : ℕ
  paComplete : Bool
deriving DecidableEq

/-- The timing part of `Stimulus.callback`: `time[0]` is the buffer-start
frame times the sample period `Ts`; the frame counter advances by
`frame_count`; the flag is set to `paComplete` once `time[0] > duration`
and is otherwise left unchanged. -/
def stimulusCallbackStep (Ts duration : ℚ) (s : StimulusTiming) (frame_count : ℕ) :
    StimulusTiming :=
  { frame := s.frame + frame_count,
    paComplete := if (s.frame : ℚ) * Ts > duration then true else s.paComplete }

/-- The timing effect of `Stimulus.play` on a stopped, not-closed stream:
`self._frame = 0` and `self.pa_flag = pyaudio.paContinue`. -/
def stimulusPlayTiming : StimulusTiming := { frame := 0, paComplete := false }

/-- A sequence of consecutive callback invocations with the given buffer
sizes. -/
def runCallbacks (Ts duration : ℚ) (s : StimulusTiming) : List ℕ → StimulusTiming
  | [] => s
  | c :: cs => runCallbacks Ts duration (stimulusCallbackStep Ts duration s c) cs

/-- C2: with sample period `1/Fs`, a callback leaves the completion flag
true exactly when it was already true or the frame index at the start of
the current buffer strictly exceeds `duration * Fs`; once true it stays
true across every subsequent callback; and `play()` resets the flag and the
frame counter to zero. -/
theorem Stimulus.paComplete_iff_start_exceeds (Fs duration : ℚ) (hFs : 0 < Fs) :
    (∀ (s : StimulusTiming) (c : ℕ),
       ((stimulusCallbackStep (1 / Fs) duration s c).paComplete = true ↔
        (s.paComplete = true ∨ duration * Fs < (s.frame : ℚ)))) ∧
    (∀ (s : StimulusTiming) (cs : List ℕ), s.paComplete = true →
       (runCallbacks (1 / Fs) duration s cs).paComplete = true) ∧
    stimulusPlayTiming.paComplete = false ∧ stimulusPlayTiming.frame = 0 := by
  have hconv : ∀ m : ℕ, ((m : ℚ) * (1 / Fs) > duration ↔ duration * Fs < m) := by
    intro m
    rw [gt_iff_lt, mul_one_div, lt_div_iff₀ hFs]
  refine ⟨?_, ?_, rfl, rfl⟩
  · intro s c
    rw [stimulusCallbackStep]
    split_ifs with h
    · simp [(hconv s.frame).1 h]
    · rw [hconv s.frame] at h
      simp [h]
  · intro s cs
    induction cs generalizing s with
    | nil => intro h; exact h
    | cons c cs ih =>
      intro h
      rw [runCallbacks]
      apply ih
      rw [stimulusCallbackStep]
      split_ifs <;> simp [h]

/-- Witness for C2 at the spec scenario: 48000 Hz, duration 1 s, buffers of
48000 frames.  Buffer 0 (start 0) and buffer 1 (start 48000, which does not
strictly exceed `1 * 48000`) leave the flag false; buffer 2 (start 96000)
sets it. -/
theorem Stimulus.paComplete_iff_start_exceeds_check :
    (0 : ℚ) < 48000 ∧
    (stimulusCallbackStep (1 / 48000) 1 stimulusPlayTiming 48000).paComplete = false ∧
    (runCallbacks (1 / 48000) 1 stimulusPlayTiming [48000, 48000]).paComplete = false ∧
    (runCallbacks (1 / 48000) 1 stimulusPlayTiming [48000, 48000, 48000]).paComplete = true ∧
    (∀ (s : StimulusTiming) (c : ℕ),
       ((stimulusCallbackStep (1 / 48000) 1 s c).paComplete = true ↔
        (s.paComplete = true ∨ (1 : ℚ) * 48000 < (s.frame : ℚ)))) :=
  ⟨by norm_num,
   by norm_num [stimulusCallbackStep, stimulusPlayTiming],
   by norm_num [runCallbacks, stimulusCallbackStep, stimulusPlayTiming],
   by norm_num [runCallbacks, stimulusCallbackStep, stimulusPlayTiming],
   (Stimulus.paComplete_iff_start_exceeds 48000 1 (by norm_num)).1⟩

/-- `np.arange(start, stop, step)` for positive `step`: the values
`start + i * step` for `i < ⌈(stop - start) / step⌉` (stop excluded). -/
def arange (start stop step : ℚ) : List ℚ :=
  (List.range (⌈(stop - start) / step⌉.toNat)).map (fun i : ℕ => start + (i : ℚ) * step)

/-- The `testStimulus` control dictionary of `PaMethods.MethodOfAdjustment`
(the fields `_updateTestStimulus` manipulates): the candidate pool
`parameterList`, the spacing `parameterSearchPrecision`, and the domain
bound `max`. -/
structure TestStimulusControl where
  parameterList : List ℚ
  parameterSearchPrecision : ℚ
  max : ℚ
deriving DecidableEq

/-- Pool maintenance in `MethodOfAdjustment._updateTestStimulus`: remove
every already-used value from the pool (set difference modeled as a
filter); if the pool becomes empty, halve the spacing, regenerate the pool
as `np.arange(precision, max, precision)` and filter against the used
values again. -/
def updateTestStimulus (s : TestStimulusControl) (usedTestStimuli : List ℚ) :
    TestStimulusControl :=
  let pl := s.parameterList.filter (fun x => !decide (x ∈ usedTestStimuli))
  if pl.length = 0 then
    let prec := s.parameterSearchPrecision / 2
    { s with parameterSearchPrecision := prec,
             parameterList :=
               (arange prec s.max prec).filter (fun x => !decide (x ∈ usedTestStimuli)) }
  else
    { s with parameterList := pl }

/-- C6: after every `_updateTestStimulus` pool-maintenance step the
candidate pool contains no value from the used-value history (so the value
subsequently drawn from the pool is always fresh), and when the filtered
pool empties it is regenerated with spacing exactly half the previous
`parameterSearchPrecision`, as the arithmetic sequence
`precision, 2*precision, ...` strictly below `max`, filtered against the
history again. -/
theorem MethodOfAdjustment.updateTestStimulus_fresh
    (s : TestStimulusControl) (used : List ℚ) :
    (∀ x ∈ (updateTestStimulus s used).parameterList, x ∉ used) ∧
    ((s.parameterList.filter (fun x => !decide (x ∈ used))).length = 0 →
      (updateTestStimulus s used).parameterSearchPrecision =
        s.parameterSearchPrecision / 2 ∧
      (updateTestStimulus s used).parameterList =
        (arange (s.parameterSearchPrecision / 2) s.max
            (s.parameterSearchPrecision / 2)).filter
          (fun x => !decide (x ∈ used))) := by
  constructor
  · intro x hx
    rw [updateTestStimulus] at hx
    split_ifs at hx with h
    · simp only [List.mem_filter, Bool.not_eq_true', decide_eq_false_iff_not] at hx
      exact hx.2
    · simp only [List.mem_filter, Bool.not_eq_true', decide_eq_false_iff_not] at hx
      exact hx.2
  · intro h
    rw [updateTestStimulus]
    rw [if_pos h]
    exact ⟨rfl, rfl⟩

/-- Witness for C6: a pool `[1000]` at spacing 1000 over max 3000 whose only
value has been used; the step halves the spacing to 500 and regenerates the
filtered pool. -/
theorem MethodOfAdjustment.updateTestStimulus_fresh_check :
    (((⟨[1000], 1000, 3000⟩ : TestStimulusControl)).parameterList.filter
        (fun x => !decide (x ∈ [(1000 : ℚ)]))).length = 0 ∧
    (updateTestStimulus ⟨[1000], 1000, 3000⟩ [1000]).parameterSearchPrecision = 1000 / 2 ∧
    (updateTestStimulus ⟨[1000], 1000, 3000⟩ [1000]).parameterList =
      (arange (1000 / 2) 3000 (1000 / 2)).filter (fun x => !decide (x ∈ [(1000 : ℚ)])) := by
  have hcond : (((⟨[1000], 1000, 3000⟩ : TestStimulusControl)).parameterList.filter
      (fun x => !decide (x ∈ [(1000 : ℚ)]))).length = 0 := by
    simp
  have h := (MethodOfAdjustment.updateTestStimulus_fresh ⟨[1000], 1000, 3000⟩ [1000]).2 hcond
  exact ⟨hcond, h.1, h.2⟩

/-- The `volume_mode` enum of `stimulus.py`. -/
inductive VolumeMode
  | LINEAR
  | DB
deriving DecidableEq

/-- The construction-time error taxonomy: unsupported sample rate
(`Stimulus.__init__`) and out-of-range amplitude
(`PureToneMono.__init__` / `PureToneStereo.__init__`).  Both are Python
`ValueError`s; the spec names them `UnsupportedSampleRate` and
`InvalidAmplitude`. -/
inductive StimulusError
  | unsupportedSampleRate
  | invalidAmplitude
deriving DecidableEq

/-- State created by a successful `PureToneMono.__init__`: envelope
generators for amplitude (`rate=200`) and frequency (`rate=Fs/2`), the
accumulated phase `_theta` initialised to 0, and the volume mode.
(`duration` is stored unvalidated and is irrelevant to validation.) -/
structure PureToneMonoConfig where
  Fs : ℚ
  A : EnvelopeGenerator
  f : EnvelopeGenerator
  volume_mode : VolumeMode
  theta : ℚ
deriving DecidableEq

/-- `PureToneMono.__init__` validation, in source order: linear-mode
amplitude check (`A > 1`), then dB-mode amplitude check (`A > 0`), then the
base-class sample-rate check (`Fs in [44100, 48000]`, reached via
`super().__init__()` only after the amplitude checks pass). -/
def PureToneMono.construct (Fs A f : ℚ) (volume_mode : VolumeMode) :
    Except StimulusError PureToneMonoConfig :=
  if A > 1 ∧ volume_mode = VolumeMode.LINEAR then .error .invalidAmplitude
  else if A > 0 ∧ volume_mode = VolumeMode.DB then .error .invalidAmplitude
  else if ¬ (Fs = 44100 ∨ Fs = 48000) then .error .unsupportedSampleRate
  else .ok { Fs := Fs, A := EnvelopeGenerator.init A 200 Fs,
             f := EnvelopeGenerator.init f (Fs / 2) Fs,
             volume_mode := volume_mode, theta := 0 }

/-- State created by a successful `PureToneStereo.__init__`. -/
structure PureToneStereoConfig where
  Fs : ℚ
  A_L : EnvelopeGenerator
  f_L : EnvelopeGenerator
  A_R : EnvelopeGenerator
  f_R : EnvelopeGenerator
  volume_mode : VolumeMode
  theta_L : ℚ
  theta_R : ℚ
deriving DecidableEq

/-- `PureToneStereo.__init__` validation, in source order (either channel's
amplitude being out of range triggers the amplitude error). -/
def PureToneStereo.construct (Fs A_L f_L A_R f_R : ℚ) (volume_mode : VolumeMode) :
    Except StimulusError PureToneStereoConfig :=
  if (A_L > 1 ∨ A_R > 1) ∧ volume_mode = VolumeMode.LINEAR then .error .invalidAmplitude
  else if (A_L > 0 ∨ A_R > 0) ∧ volume_mode = VolumeMode.DB then .error .invalidAmplitude
  else if ¬ (Fs = 44100 ∨ Fs = 48000) then .error .unsupportedSampleRate
  else .ok { Fs := Fs,
             A_L := EnvelopeGenerator.init A_L 200 Fs,
             f_L := EnvelopeGenerator.init f_L (Fs / 2) Fs,
             A_R := EnvelopeGenerator.init A_R 200 Fs,
             f_R := EnvelopeGenerator.init f_R (Fs / 2) Fs,
             volume_mode := volume_mode, theta_L := 0, theta_R := 0 }

/-- C7 counterexample: with BOTH an unsupported sample rate (22050 Hz) and
an invalid dB amplitude (+5 dB), construction raises the amplitude error,
not `UnsupportedSampleRate` — the claim's "UnsupportedSampleRate unless the
sample rate is 44100 or 48000" fails because the amplitude checks run
first. -/
theorem PureTone.construct_joint_invalid_cex :
    ¬ ((22050 : ℚ) = 44100 ∨ (22050 : ℚ) = 48000) ∧
    PureToneMono.construct 22050 5 1000 .DB = .error .invalidAmplitude ∧
    PureToneMono.construct 22050 5 1000 .DB ≠ .error .unsupportedSampleRate := by
  refine ⟨by norm_num, ?_, ?_⟩
  · rw [PureToneMono.construct]
    norm_num
  · rw [PureToneMono.construct]
    norm_num
    decide

/-- C7 (amended): construction fails if and only if the configuration is
invalid, with amplitude validated before the sample rate: the result is
`InvalidAmplitude` exactly when the mode/amplitude combination is out of
range (dB and > 0, or linear and > 1, on any channel);
`UnsupportedSampleRate` exactly when the amplitudes are in range but the
sample rate is neither 44100 nor 48000; and success exactly when amplitudes
and sample rate are both valid.  Stated for both the mono and the stereo
constructor. -/
theorem PureTone.construct_validation
    (Fs A f A_L f_L A_R f_R : ℚ) (m : VolumeMode) :
    ((PureToneMono.construct Fs A f m = .error .invalidAmplitude ↔
        ((m = .LINEAR ∧ 1 < A) ∨ (m = .DB ∧ 0 < A))) ∧
     (PureToneMono.construct Fs A f m = .error .unsupportedSampleRate ↔
        (¬ ((m = .LINEAR ∧ 1 < A) ∨ (m = .DB ∧ 0 < A)) ∧
         ¬ (Fs = 44100 ∨ Fs = 48000))) ∧
     ((∃ c, PureToneMono.construct Fs A f m = .ok c) ↔
        (¬ ((m = .LINEAR ∧ 1 < A) ∨ (m = .DB ∧ 0 < A)) ∧
         (Fs = 44100 ∨ Fs = 48000)))) ∧
    ((PureToneStereo.construct Fs A_L f_L A_R f_R m = .error .invalidAmplitude ↔
        ((m = .LINEAR ∧ (1 < A_L ∨ 1 < A_R)) ∨ (m = .DB ∧ (0 < A_L ∨ 0 < A_R)))) ∧
     (PureToneStereo.construct Fs A_L f_L A_R f_R m = .error .unsupportedSampleRate ↔
        (¬ ((m = .LINEAR ∧ (1 < A_L ∨ 1 < A_R)) ∨ (m = .DB ∧ (0 < A_L ∨ 0 < A_R))) ∧
         ¬ (Fs = 44100 ∨ Fs = 48000))) ∧
     ((∃ c, PureToneStereo.construct Fs A_L f_L A_R f_R m = .ok c) ↔
        (¬ ((m = .LINEAR ∧ (1 < A_L ∨ 1 < A_R)) ∨ (m = .DB ∧ (0 < A_L ∨ 0 < A_R))) ∧
         (Fs = 44100 ∨ Fs = 48000)))) := by
  refine ⟨?_, ?_⟩
  · rw [PureToneMono.construct]
    rcases m with _ | _ <;> split_ifs with h1 h2 h3 <;> simp_all
  · rw [PureToneStereo.construct]
    rcases m with _ | _ <;> split_ifs with h1 h2 h3 <;> simp_all

/-- The error raised by `pa_methods.PaMethods.adjust_stimulus` when a
keyword is not a declared stimulus parameter (a Python `AssertionError`,
named `UnknownParameter` by the spec). -/
inductive AdjustError
  | unknownParameter
deriving DecidableEq

/-- Declared controllable parameter set of `PureToneMono`: the runtime
introspection in `Stimulus.__init__` (public attributes minus base-class
members, minus `Fs`, `num_channels` and `volume_mode`) yields
`A`, `f`, `duration`. -/
def PureToneMono.parameters : List String := ["A", "f", "duration"]

/-- `pa_methods.PaMethods.adjust_stimulus(**kwargs)`: for each keyword in
turn, `assert key in self.stimulus.parameters` and then set it; the first
undeclared keyword aborts with the unknown-parameter error. -/
def adjust_stimulus (declared : List String) :
    List (String × ℚ) → Except AdjustError Unit
  | [] => .ok ()
  | (k, _) :: rest =>
      if k ∈ declared then adjust_stimulus declared rest
      else .error .unknownParameter

/-- `PaMethods.PaMethods.adjustStimulus(value)`: performs
`setattr(self.stimulus, self.userStimulus["parameter"], value)` with NO
membership check — it succeeds for any parameter name its configuration
holds, declared or not. -/
def adjustStimulus (userParameter : String) (value : ℚ) :
    Except AdjustError (String × ℚ) :=
  .ok (userParameter, value)

/-- C8 counterexample: the `PaMethods.py` adjust entry point performs no
name check, so adjusting via an undeclared name ("bogus", not among
`PureToneMono`'s parameters) succeeds instead of failing with
`UnknownParameter` — the claim fails for this entry point. -/
theorem PaMethods.adjustStimulus_no_check_cex :
    ¬ "bogus" ∈ PureToneMono.parameters ∧
    adjustStimulus "bogus" 5 = .ok ("bogus", 5) ∧
    adjustStimulus "bogus" 5 ≠ .error .unknownParameter := by
  refine ⟨by decide, rfl, by simp [adjustStimulus]⟩

/-- C8 (amended): the keyword-checking entry point
(`pa_methods.PaMethods.adjust_stimulus`) fails with `UnknownParameter`
exactly when the name is not in the declared parameter set and succeeds
exactly when it is; the `PaMethods.py` entry point (`adjustStimulus`)
performs no check and always succeeds. -/
theorem PaMethods.adjust_unknownParameter_iff
    (declared : List String) (name : String) (v : ℚ) :
    (adjust_stimulus declared [(name, v)] = .error .unknownParameter ↔
       ¬ name ∈ declared) ∧
    (adjust_stimulus declared [(name, v)] = .ok () ↔ name ∈ declared) ∧
    (∀ value : ℚ, adjustStimulus name value = .ok (name, value)) := by
  refine ⟨?_, ?_, fun _ => rfl⟩ <;>
    rw [adjust_stimulus] <;> split_ifs with h <;> simp_all [adjust_stimulus]

/-- A controllable stimulus parameter as `PaMethods._logStimulus` sees it:
either backed by an `EnvelopeGenerator` (amplitude, frequency) or a plain
scalar (duration). -/
inductive ParamValue
  | env (e : EnvelopeGenerator)
  | scalar (x : ℚ)
deriving DecidableEq

/-- The value `_logStimulus` appends for one parameter: the generator's
`setpoint` for envelope-backed parameters (the commanded target, never the
transient `current`), the raw value for scalars. -/
def resolveLogged : ParamValue → ℚ
  | .env e => e.setpoint
  | .scalar x => x

/-- The effect of `setattr(stimulus, name, v)` on one parameter: the
property setter forwards to the backing generator's setpoint
(`self._A.setpoint = value`), while a plain scalar is replaced. -/
def setParamValue : ParamValue → ℚ → ParamValue
  | .env e, v => .env (e.setSetpoint v)
  | .scalar _, v => .scalar v

/-- One `PaMethods._logStimulus` step: for every tracked parameter, append
its resolved value to that parameter's log series (unknown names leave the
logs unchanged). -/
def logStimulus (stim : String → Option ParamValue) (logs : String → List ℚ) :
    String → List ℚ :=
  fun name =>
    match stim name with
    | some pv => logs name ++ [resolveLogged pv]
    | none => logs name

/-- `setattr(self.stimulus, name, v)` lifted to the parameter map. -/
def setParameter (stim : String → Option ParamValue) (name : String) (v : ℚ) :
    String → Option ParamValue :=
  fun n => if n = name then (stim n).map (fun pv => setParamValue pv v) else stim n

/-- C9: round-trip through the parameter log — setting any tracked
parameter to `v` and then performing one `_logStimulus` step appends
exactly `v` to (and leaves as last entry of) that parameter's series; for
envelope-backed parameters the logged value is the generator's setpoint. -/
theorem PaMethods.logStimulus_roundtrip
    (stim : String → Option ParamValue) (logs : String → List ℚ)
    (name : String) (pv : ParamValue) (v : ℚ) (h : stim name = some pv) :
    (logStimulus (setParameter stim name v) logs) name = logs name ++ [v] ∧
    ((logStimulus (setParameter stim name v) logs) name).getLast? = some v ∧
    (∀ e : EnvelopeGenerator, resolveLogged (.env e) = e.setpoint) := by
  have hres : resolveLogged (setParamValue pv v) = v := by
    rcases pv with e | x
    · rfl
    · rfl
  have hset : setParameter stim name v name = some (setParamValue pv v) := by
    rw [setParameter, if_pos rfl, h, Option.map_some']
  have hmain : (logStimulus (setParameter stim name v) logs) name = logs name ++ [v] := by
    rw [logStimulus, hset]
    show logs name ++ [resolveLogged (setParamValue pv v)] = logs name ++ [v]
    rw [hres]
  exact ⟨hmain, by rw [hmain, List.getLast?_concat], fun _ => rfl⟩

/-- The `PureToneMono` parameter map (amplitude and frequency
envelope-backed, duration scalar) at its Hearing-Threshold defaults. -/
def monoParamMap : String → Option ParamValue :=
  fun n =>
    if n = "A" then some (.env (EnvelopeGenerator.init (-40) 200 48000))
    else if n = "f" then some (.env (EnvelopeGenerator.init 1000 24000 48000))
    else if n = "duration" then some (.scalar 1)
    else none

/-- Witness for C9: set the envelope-backed parameter `A` (whose generator
still sits at `current = -40`) to `-50`; one log step appends exactly
`-50`. -/
theorem PaMethods.logStimulus_roundtrip_check :
    monoParamMap "A" = some (.env (EnvelopeGenerator.init (-40) 200 48000)) ∧
    ((logStimulus (setParameter monoParamMap "A" (-50)) (fun _ => [])) "A" =
      [] ++ [(-50 : ℚ)] ∧
     ((logStimulus (setParameter monoParamMap "A" (-50)) (fun _ => [])) "A").getLast? =
      some (-50) ∧
     (∀ e : EnvelopeGenerator, resolveLogged (.env e) = e.setpoint)) :=
  ⟨rfl, PaMethods.logStimulus_roundtrip monoParamMap (fun _ => []) "A"
    (.env (EnvelopeGenerator.init (-40) 200 48000)) (-50) rfl⟩

/-- Playback state of a `PureToneMono`: the base-class timing
(`_frame`, `pa_flag`) together with the concrete class's accumulated phase
`_theta`. -/
structure PureToneMonoState where
  frame : ℕ
  paComplete : Bool
  theta : ℝ

/-- `Stimulus.play` on a stopped, not-closed stimulus: the base class
resets `self._frame = 0` and `self.pa_flag = paContinue` and restarts the
stream.  It does NOT touch the concrete class's `self._theta`. -/
def PureToneMono.play (s : PureToneMonoState) : PureToneMonoState :=
  { s with frame := 0, paComplete := false }

/-- `PureToneMono.__init__` sets `self._theta = 0` (construction is the only
place the accumulated phase is zeroed). -/
def PureToneMono.initState : PureToneMonoState :=
  { frame := 0, paComplete := false, theta := 0 }

/-- C5 counterexample: replaying a stimulus whose carried phase is 1 radian
resets the frame counter but leaves the phase at 1 ≠ 0 — `play()` does not
reset the accumulated phase. -/
theorem Stimulus.play_phase_not_reset_cex :
    (PureToneMono.play ⟨100, true, 1⟩).frame = 0 ∧
    (PureToneMono.play ⟨100, true, 1⟩).theta = 1 ∧
    (1 : ℝ) ≠ 0 :=
  ⟨rfl, rfl, one_ne_zero⟩

/-- C5 (amended): `play()` on a stopped, not-closed stimulus resets the
elapsed-frame counter to zero and the completion flag to continue, but
PRESERVES the accumulated phase; the phase is zero only at construction,
so a replayed stimulus resumes from the carried phase of the previous
run. -/
theorem Stimulus.play_resets_frame_preserves_theta (s : PureToneMonoState) :
    (PureToneMono.play s).frame = 0 ∧
    (PureToneMono.play s).paComplete = false ∧
    (PureToneMono.play s).theta = s.theta ∧
    PureToneMono.initState.theta = 0 :=
  ⟨rfl, rfl, rfl, rfl⟩

/-- A steady-state envelope generator emits a constant block (`next`'s first
branch): this is the sense in which C1's premise "envelopes in steady
state" makes the frequency and amplitude arrays constant. -/
lemma EnvelopeGenerator.next_steady (e : EnvelopeGenerator) (n : ℕ)
    (h : e.steady_state = true) :
    e.next n = some (List.replicate n e.setpoint, e) := by
  rw [EnvelopeGenerator.next, if_pos h]

/-- Python / numpy float `%` with a positive modulus, in exact real
arithmetic: `x % y = x - y * ⌊x / y⌋`, landing in `[0, y)`. -/
noncomputable def rmod (x y : ℝ) : ℝ := x - y * ⌊x / y⌋

/-- `theta_accum` of `PureToneMono.callback` in exact real arithmetic:
`np.cumsum((2 * np.pi * f_arr) * Ts) + theta`, i.e. entry `i` is the
carried phase plus the sum of the first `i + 1` phase increments. -/
noncomputable def thetaAccum (θ Ts : ℝ) (f_arr : ℕ → ℝ) (i : ℕ) : ℝ :=
  θ + ∑ j ∈ Finset.range (i + 1), 2 * Real.pi * f_arr j * Ts

/-- The carried phase after an `n`-frame buffer (`n ≥ 1`):
`self._theta = theta_accum[-1] % (2 * np.pi)`, wrapped into `[0, 2π)`. -/
noncomputable def carriedTheta (θ Ts : ℝ) (f_arr : ℕ → ℝ) (n : ℕ) : ℝ :=
  rmod (thetaAccum θ Ts f_arr (n - 1)) (2 * Real.pi)

/-- Sample `i` of the dB-mode mono callback:
`np.power(10, A_arr[i] / 20) * np.sin(theta_accum[i])`. -/
noncomputable def monoSampleDB (θ Ts : ℝ) (f_arr A_arr : ℕ → ℝ) (i : ℕ) : ℝ :=
  (10 : ℝ) ^ (A_arr i / 20) * Real.sin (thetaAccum θ Ts f_arr i)

/-- C1: for a mono pure tone in steady state (constant frequency `f` and
amplitude `A`, so the envelope arrays are constant), the sample at every
global index `k` of a single `n1 + n2`-frame callback equals the sample
produced by two consecutive callbacks of `n1` and `n2` frames, where the
second starts from the carried phase `theta_accum[-1] % 2π` of the first:
the phases differ by an integer multiple of `2π`, so the `sin` values agree
exactly in real arithmetic. -/
theorem PureToneMono.buffer_split_sample_eq (θ A f Ts : ℝ) (n1 n2 k : ℕ)
    (h1 : 1 ≤ n1) (hk : k < n1 + n2) :
    (if k < n1 then
       monoSampleDB θ Ts (fun _ => f) (fun _ => A) k
     else
       monoSampleDB (carriedTheta θ Ts (fun _ => f) n1) Ts
         (fun _ => f) (fun _ => A) (k - n1))
    = monoSampleDB θ Ts (fun _ => f) (fun _ => A) k := by
  split_ifs with h
  · rfl
  · have hn1k : n1 ≤ k := Nat.le_of_not_lt h
    have hsum : ∀ (x : ℝ) (m : ℕ),
        thetaAccum x Ts (fun _ => f) m = x + ((m : ℝ) + 1) * (2 * Real.pi * f * Ts) := by
      intro x m
      rw [thetaAccum, Finset.sum_const, Finset.card_range, nsmul_eq_mul]
      push_cast
      ring
    rw [monoSampleDB, monoSampleDB]
    congr 1
    rw [hsum, hsum, carriedTheta, rmod, hsum]
    have hcast1 : ((n1 - 1 : ℕ) : ℝ) = (n1 : ℝ) - 1 := by
      rw [Nat.cast_sub h1]
      norm_num
    have hcast2 : ((k - n1 : ℕ) : ℝ) = (k : ℝ) - (n1 : ℝ) := by
      rw [Nat.cast_sub hn1k]
    rw [hcast1, hcast2]
    have harr : θ + ((n1 : ℝ) - 1 + 1) * (2 * Real.pi * f * Ts) -
        2 * Real.pi *
          ⌊(θ + ((n1 : ℝ) - 1 + 1) * (2 * Real.pi * f * Ts)) / (2 * Real.pi)⌋ +
        ((k : ℝ) - (n1 : ℝ) + 1) * (2 * Real.pi * f * Ts)
        = (θ + ((k : ℝ) + 1) * (2 * Real.pi * f * Ts)) -
          (⌊(θ + ((n1 : ℝ) - 1 + 1) * (2 * Real.pi * f * Ts)) / (2 * Real.pi)⌋ : ℤ) *
            (2 * Real.pi) := by
      ring
    rw [harr, Real.sin_sub_int_mul_two_pi]

/-- Witness for C1 at the claim's split: buffers 1024 + 1024 versus one
2048-frame buffer, sample index 1500 (in the second half), tone 1000 Hz at
-50 dB, 48000 Hz sample rate, initial carried phase 0. -/
theorem PureToneMono.buffer_split_sample_eq_check :
    1 ≤ 1024 ∧ 1500 < 1024 + 1024 ∧
    (if 1500 < 1024 then
       monoSampleDB 0 (1 / 48000) (fun _ => 1000) (fun _ => -50) 1500
     else
       monoSampleDB (carriedTheta 0 (1 / 48000) (fun _ => 1000) 1024) (1 / 48000)
         (fun _ => 1000) (fun _ => -50) (1500 - 1024))
    = monoSampleDB 0 (1 / 48000) (fun _ => 1000) (fun _ => -50) 1500 :=
  ⟨by norm_num, by norm_num,
   PureToneMono.buffer_split_sample_eq 0 (-50) 1000 (1 / 48000) 1024 1024 1500
     (by norm_num) (by norm_num)⟩

end Acoustics
